import Mathlib

/-!
Shallow embedding of `src/time/Time.js` (Phaser CE core game clock) and
verification of its specification claims.

Modelling conventions:
* JS numbers are modelled as exact rationals (`ℚ`); `Math.floor` is `Int.floor`,
  `Math.round` is Mathlib's `round` (both round `.5` up, as in JS for the
  values occurring here), `Math.min`/`Math.max` are `min`/`max`.
* Integer-valued counters (`frames`, `updates`, `renders`, `_frameCount`) are `ℕ`.
* External inputs are explicit parameters: the wall clock `Date.now()` becomes a
  `dateNow : ℚ` argument, `game.raf._isSetTimeOut` becomes `isSetTimeOut : Bool`,
  and `game.paused` becomes `paused : Bool`.
* `Phaser.Timer` objects are external collaborators of this file's source
  (the spec declares them out of scope, interface only), so they are modelled
  as opaque logged handles exposing exactly the capability set the clock uses.
-/

namespace PhaserCE

/-- Modelled from the spec: the events a pooled timer handle can receive from
the clock; `Phaser.Timer` itself is out of scope (interface only), so each
capability call is recorded in a log. -/
inductive TimerEvent where
  | start : TimerEvent
  | update : ℚ → TimerEvent
  | pause : TimerEvent
  | resume : TimerEvent
  | destroy : TimerEvent
  | removeAllEvents : TimerEvent
  deriving DecidableEq, Repr

/-- Modelled from the spec: an opaque timer handle.  `script` lists the boolean
continuation results of its successive `update` calls (exhausted entries
default to `true`, i.e. "keep me"); `nUpdates` counts the `update` calls made
so far; `log` records every capability call the clock performed on it, in
order.  `id` identifies the handle. -/
structure Timer where
  id : ℕ
  script : List Bool
  nUpdates : ℕ
  log : List TimerEvent
  deriving DecidableEq, Repr

/-- Modelled from the spec: advancing a timer returns its continuation signal
(`false` means "remove me from the pool") and the timer with the call logged. -/
def Timer.update (tm : Timer) (t : ℚ) : Bool × Timer :=
  (tm.script.getD tm.nUpdates true,
   { tm with nUpdates := tm.nUpdates + 1, log := tm.log ++ [TimerEvent.update t] })

/-- Modelled from the spec: `Phaser.Timer#start`, logged. -/
def Timer.start (tm : Timer) : Timer :=
  { tm with log := tm.log ++ [TimerEvent.start] }

/-- Modelled from the spec: `Phaser.Timer#pause` (public form used on the
master timer), logged. -/
def Timer.pause (tm : Timer) : Timer :=
  { tm with log := tm.log ++ [TimerEvent.pause] }

/-- Modelled from the spec: `Phaser.Timer#resume` (public form used on the
master timer), logged. -/
def Timer.resume (tm : Timer) : Timer :=
  { tm with log := tm.log ++ [TimerEvent.resume] }

/-- Modelled from the spec: `Phaser.Timer#_pause` (internal form used on pooled
timers), logged. -/
def Timer._pause (tm : Timer) : Timer :=
  { tm with log := tm.log ++ [TimerEvent.pause] }

/-- Modelled from the spec: `Phaser.Timer#_resume` (internal form used on pooled
timers), logged. -/
def Timer._resume (tm : Timer) : Timer :=
  { tm with log := tm.log ++ [TimerEvent.resume] }

/-- Modelled from the spec: `Phaser.Timer#removeAll`, logged. -/
def Timer.removeAllEvents (tm : Timer) : Timer :=
  { tm with log := tm.log ++ [TimerEvent.removeAllEvents] }

/-- Modelled from the spec: a freshly constructed timer (as
`new Phaser.Timer(game, ...)`): nothing logged yet, default script. -/
def Timer.new (i : ℕ) : Timer :=
  { id := i, script := [], nUpdates := 0, log := [] }

/-- The state of `Phaser.Time` (the Clock): one field per instance property
assigned in the constructor, `src/time/Time.js` lines 38-333.  `time` is the
wall-clock field (spec `wallTime`), `elapsedMS` the wall delta (spec
`wallDeltaMs`), `timeToCall`/`timeExpected` the fallback-cadence fields. -/
structure Time where
  time : ℚ
  prevTime : ℚ
  now : ℚ
  elapsed : ℚ
  elapsedMS : ℚ
  physicsElapsed : ℚ
  physicsElapsedMS : ℚ
  desiredFpsMult : ℚ
  _desiredFps : ℚ
  suggestedFps : ℚ
  slowMotion : ℚ
  advancedTiming : Bool
  frames : ℕ
  updates : ℕ
  renders : ℕ
  fps : ℚ
  ups : ℚ
  rps : ℚ
  fpsMin : ℚ
  fpsMax : ℚ
  msMin : ℚ
  msMax : ℚ
  pauseDuration : ℚ
  timeToCall : ℚ
  timeExpected : ℚ
  events : Timer
  _frameCount : ℕ
  _elapsedAccumulator : ℚ
  _started : ℚ
  _timeLastSecond : ℚ
  _pauseStarted : ℚ
  _justResumed : Bool
  _timers : List Timer

namespace Time

/-- The `Phaser.Time` constructor: initial field values from
`src/time/Time.js` lines 38-333 (`suggestedFps` starts at `desiredFps`, i.e.
60; `this.events = new Phaser.Timer(this.game, false)`). -/
def construct : Time :=
  { time := 0
    prevTime := 0
    now := 0
    elapsed := 0
    elapsedMS := 0
    physicsElapsed := 1 / 60
    physicsElapsedMS := (1 / 60) * 1000
    desiredFpsMult := 1 / 60
    _desiredFps := 60
    suggestedFps := 60
    slowMotion := 1
    advancedTiming := false
    frames := 0
    updates := 0
    renders := 0
    fps := 0
    ups := 0
    rps := 0
    fpsMin := 1000
    fpsMax := 0
    msMin := 1000
    msMax := 0
    pauseDuration := 0
    timeToCall := 0
    timeExpected := 0
    events := Timer.new 0
    _frameCount := 0
    _elapsedAccumulator := 0
    _started := 0
    _timeLastSecond := 0
    _pauseStarted := 0
    _justResumed := false
    _timers := [] }

/-- Method `Phaser.Time#boot` (lines 343-351): records session start, sets wall time,
starts the master timer, seeds the cadence expectation.  `dateNow` is the
current `Date.now()` sample. -/
def boot (dateNow : ℚ) (s : Time) : Time :=
  let s := { s with _started := dateNow }
  let s := { s with time := dateNow }
  let s := { s with events := s.events.start }
  { s with timeExpected := s.time }

/-- Method `Phaser.Time#add` (lines 360-367): pushes the timer onto the pool and
returns it. -/
def add (tm : Timer) (s : Time) : Timer × Time :=
  (tm, { s with _timers := s._timers ++ [tm] })

/-- Method `Phaser.Time#create` (lines 376-387): constructs a new timer, pushes it
onto the pool and returns it (`i` supplies the new handle's identity; the
`autoDestroy` policy lives inside the opaque timer). -/
def create (i : ℕ) (s : Time) : Timer × Time :=
  let tm := Timer.new i
  (tm, { s with _timers := s._timers ++ [tm] })

/-- Method `Phaser.Time#removeAll` (lines 394-406): destroys every pooled timer,
clears the pool and clears the master timer's events. -/
def removeAll (s : Time) : Time :=
  let s := { s with _timers := [] }
  { s with events := s.events.removeAllEvents }

/-- Method `Phaser.Time#refresh` (lines 413-425): re-samples `Date.now()` into `time`
and sets `elapsedMS` to the wall delta. -/
def refresh (dateNow : ℚ) (s : Time) : Time :=
  let previousDateNow := s.time
  let s := { s with time := dateNow }
  { s with elapsedMS := s.time - previousDateNow }

/-- The body of the `while (i < len)` loop of `Phaser.Time#updateTimers`
(lines 495-516): each pooled timer is updated once with `t` (the clock's wall
time); a `true` result keeps it (advance `i`), a `false` result splices it out
in place (`len--`), preserving the order of the rest. -/
def updateTimersLoop (t : ℚ) : List Timer → List Timer
  | [] => []
  | tm :: rest =>
    let r := tm.update t
    if r.1 then r.2 :: updateTimersLoop t rest
    else updateTimersLoop t rest

/-- Method `Phaser.Time#updateTimers` (lines 495-516). -/
def updateTimers (s : Time) : Time :=
  { s with _timers := updateTimersLoop s.time s._timers }

/-- Method `Phaser.Time#updateAdvancedTiming` (lines 525-560): frame counting,
`suggestedFps` recomputation every `desiredFps * 2` frames, per-frame extrema,
and the one-second fps/ups/rps rollover keyed on `now`. -/
def updateAdvancedTiming (s : Time) : Time :=
  let s := { s with _frameCount := s._frameCount + 1 }
  let s := { s with _elapsedAccumulator := s._elapsedAccumulator + s.elapsed }
  let s :=
    if (s._frameCount : ℚ) ≥ s._desiredFps * 2 then
      let s := { s with
        suggestedFps :=
          ((⌊200 / (s._elapsedAccumulator / (s._frameCount : ℚ))⌋ : ℤ) : ℚ) * 5 }
      let s := { s with _frameCount := 0 }
      { s with _elapsedAccumulator := 0 }
    else s
  let s := { s with msMin := min s.msMin s.elapsed }
  let s := { s with msMax := max s.msMax s.elapsed }
  let s := { s with frames := s.frames + 1 }
  if s.now > s._timeLastSecond + (1000 : ℚ) then
    let interval := s.now - s._timeLastSecond
    let s := { s with fps := ((round (((s.frames : ℚ) * 1000) / interval) : ℤ) : ℚ) }
    let s := { s with ups := ((round (((s.updates : ℚ) * 1000) / interval) : ℤ) : ℚ) }
    let s := { s with rps := ((round (((s.renders : ℚ) * 1000) / interval) : ℤ) : ℚ) }
    let s := { s with fpsMin := min s.fpsMin s.fps }
    let s := { s with fpsMax := max s.fpsMax s.fps }
    let s := { s with _timeLastSecond := s.now }
    let s := { s with frames := 0 }
    let s := { s with updates := 0 }
    { s with renders := 0 }
  else s

/-- The part of `Phaser.Time#update` (lines 434-486) that runs before the
`game.paused` check: wall-time refresh, `now`/`prevTime`/`elapsed` shift, the
fallback-cadence recomputation gated on `game.raf._isSetTimeOut`, and the
advanced-timing update gated on `advancedTiming`. -/
def updateCore (dateNow : ℚ) (isSetTimeOut : Bool) (t : ℚ) (s : Time) : Time :=
  let previousDateNow := s.time
  let s := { s with time := dateNow }
  let s := { s with elapsedMS := s.time - previousDateNow }
  let s := { s with prevTime := s.now }
  let s := { s with now := t }
  let s := { s with elapsed := s.now - s.prevTime }
  let s :=
    if isSetTimeOut then
      let s := { s with
        timeToCall :=
          ((⌊max 0 ((1000 / s._desiredFps) - (s.timeExpected - t))⌋ : ℤ) : ℚ) }
      { s with timeExpected := t + s.timeToCall }
    else s
  if s.advancedTiming then updateAdvancedTiming s else s

/-- The part of `Phaser.Time#update` (lines 474-485) that runs only when the
game is not paused: advance the master timer with the wall time, then run pool
maintenance if the pool is non-empty. -/
def updatePools (s : Time) : Time :=
  let s := { s with events := (s.events.update s.time).2 }
  if s._timers.length ≠ 0 then updateTimers s else s

/-- Method `Phaser.Time#update` (lines 434-486). -/
def update (dateNow : ℚ) (isSetTimeOut paused : Bool) (t : ℚ) (s : Time) : Time :=
  let s := updateCore dateNow isSetTimeOut t s
  if paused then s else updatePools s

/-- Method `Phaser.Time#countUpdate` (lines 568-576). -/
def countUpdate (s : Time) : Time :=
  if s.advancedTiming then { s with updates := s.updates + 1 } else s

/-- Method `Phaser.Time#countRender` (lines 584-592). -/
def countRender (s : Time) : Time :=
  if s.advancedTiming then { s with renders := s.renders + 1 } else s

/-- One step of the `var i = len; while (i--)` in-place reverse iteration used
by `gamePaused`/`gameResumed` (lines 607-612, 632-637): apply `f` to the
element at index `i` of the pool, then continue with the lower indices. -/
def setAt (l : List Timer) (i : ℕ) (f : Timer → Timer) : List Timer :=
  match l.get? i with
  | some tm => l.set i (f tm)
  | none => l

/-- The `while (i--)` loop itself: starting from `i = n`, mutate index `n-1`,
then `n-2`, ..., then `0`. -/
def iterRev (f : Timer → Timer) (l : List Timer) : ℕ → List Timer
  | 0 => l
  | i + 1 => iterRev f (setAt l i f) i

/-- Method `Phaser.Time#gamePaused` (lines 600-614): samples `Date.now()` into
`_pauseStarted`, pauses the master timer, then `_pause`s every pooled timer
iterating the pool in reverse. -/
def gamePaused (dateNow : ℚ) (s : Time) : Time :=
  let s := { s with _pauseStarted := dateNow }
  let s := { s with events := s.events.pause }
  { s with _timers := iterRev Timer._pause s._timers s._timers.length }

/-- Method `Phaser.Time#gameResumed` (lines 622-639): re-samples `Date.now()` into
`time`, sets `pauseDuration = time - _pauseStarted`, resumes the master timer,
then `_resume`s every pooled timer iterating the pool in reverse. -/
def gameResumed (dateNow : ℚ) (s : Time) : Time :=
  let s := { s with time := dateNow }
  let s := { s with pauseDuration := s.time - s._pauseStarted }
  let s := { s with events := s.events.resume }
  { s with _timers := iterRev Timer._resume s._timers s._timers.length }

/-- Method `Phaser.Time#totalElapsedSeconds` (lines 647-650). -/
def totalElapsedSeconds (s : Time) : ℚ :=
  (s.time - s._started) * (1 / 1000)

/-- Method `Phaser.Time#elapsedSince` (lines 659-662). -/
def elapsedSince (s : Time) (since : ℚ) : ℚ :=
  s.time - since

/-- Method `Phaser.Time#reset` (lines 681-687). -/
def reset (s : Time) : Time :=
  let s := { s with _started := s.time }
  removeAll s

/-- The `desiredFps` property setter (lines 702-726): stores the rate and
recomputes the three derived fixed-step fields in the same operation. -/
def setDesiredFps (value : ℚ) (s : Time) : Time :=
  let s := { s with _desiredFps := value }
  let s := { s with physicsElapsed := 1 / value }
  let s := { s with physicsElapsedMS := s.physicsElapsed * 1000 }
  { s with desiredFpsMult := 1 / value }

/-- Setting the public `advancedTiming` flag (a plain mutable property of the
clock, `this.advancedTiming = b`). -/
def setAdvancedTiming (b : Bool) (s : Time) : Time :=
  { s with advancedTiming := b }

/-- Setting the public `slowMotion` factor (a plain mutable property of the
clock, `this.slowMotion = v`). -/
def setSlowMotion (v : ℚ) (s : Time) : Time :=
  { s with slowMotion := v }

end Time

/-- One invocation of a public operation of the clock, with its external
inputs (wall-clock sample, scheduler flags, frame timestamp, timer handles)
made explicit.  Used to quantify over arbitrary sequences of public calls. -/
inductive Op where
  | boot : ℚ → Op
  | update : ℚ → Bool → Bool → ℚ → Op
  | refresh : ℚ → Op
  | add : Timer → Op
  | create : ℕ → Op
  | removeAll : Op
  | reset : Op
  | gamePaused : ℚ → Op
  | gameResumed : ℚ → Op
  | countUpdate : Op
  | countRender : Op
  | setDesiredFps : ℚ → Op
  | setAdvancedTiming : Bool → Op
  | setSlowMotion : ℚ → Op

/-- Interpretation of one public operation on the clock state. -/
def Op.apply : Op → Time → Time
  | .boot d, s => Time.boot d s
  | .update d iso p t, s => Time.update d iso p t s
  | .refresh d, s => Time.refresh d s
  | .add tm, s => (Time.add tm s).2
  | .create i, s => (Time.create i s).2
  | .removeAll, s => Time.removeAll s
  | .reset, s => Time.reset s
  | .gamePaused d, s => Time.gamePaused d s
  | .gameResumed d, s => Time.gameResumed d s
  | .countUpdate, s => Time.countUpdate s
  | .countRender, s => Time.countRender s
  | .setDesiredFps v, s => Time.setDesiredFps v s
  | .setAdvancedTiming b, s => Time.setAdvancedTiming b s
  | .setSlowMotion v, s => Time.setSlowMotion v s

/-- Whether the operation is a `gamePaused` call. -/
def Op.isGamePaused : Op → Bool
  | .gamePaused _ => true
  | _ => false

/-- Running a sequence of public operations from a given state. -/
def runOps (ops : List Op) (s : Time) : Time :=
  ops.foldl (fun acc op => op.apply acc) s

namespace Time

section PreservationLemmas

variable (s : Time)

@[simp]
lemma updateAdvancedTiming_time : (updateAdvancedTiming s).time = s.time := by
  simp only [updateAdvancedTiming]; split <;> split <;> rfl

@[simp]
lemma updateAdvancedTiming_prevTime : (updateAdvancedTiming s).prevTime = s.prevTime := by
  simp only [updateAdvancedTiming]; split <;> split <;> rfl

@[simp]
lemma updateAdvancedTiming_now : (updateAdvancedTiming s).now = s.now := by
  simp only [updateAdvancedTiming]; split <;> split <;> rfl

@[simp]
lemma updateAdvancedTiming_elapsed : (updateAdvancedTiming s).elapsed = s.elapsed := by
  simp only [updateAdvancedTiming]; split <;> split <;> rfl

@[simp]
lemma updateAdvancedTiming_elapsedMS : (updateAdvancedTiming s).elapsedMS = s.elapsedMS := by
  simp only [updateAdvancedTiming]; split <;> split <;> rfl

@[simp]
lemma updateAdvancedTiming_physicsElapsed :
    (updateAdvancedTiming s).physicsElapsed = s.physicsElapsed := by
  simp only [updateAdvancedTiming]; split <;> split <;> rfl

@[simp]
lemma updateAdvancedTiming_physicsElapsedMS :
    (updateAdvancedTiming s).physicsElapsedMS = s.physicsElapsedMS := by
  simp only [updateAdvancedTiming]; split <;> split <;> rfl

@[simp]
lemma updateAdvancedTiming_desiredFpsMult :
    (updateAdvancedTiming s).desiredFpsMult = s.desiredFpsMult := by
  simp only [updateAdvancedTiming]; split <;> split <;> rfl

@[simp]
lemma updateAdvancedTiming_desiredFps :
    (updateAdvancedTiming s)._desiredFps = s._desiredFps := by
  simp only [updateAdvancedTiming]; split <;> split <;> rfl

@[simp]
lemma updateAdvancedTiming_slowMotion :
    (updateAdvancedTiming s).slowMotion = s.slowMotion := by
  simp only [updateAdvancedTiming]; split <;> split <;> rfl

@[simp]
lemma updateAdvancedTiming_advancedTiming :
    (updateAdvancedTiming s).advancedTiming = s.advancedTiming := by
  simp only [updateAdvancedTiming]; split <;> split <;> rfl

@[simp]
lemma updateAdvancedTiming_pauseDuration :
    (updateAdvancedTiming s).pauseDuration = s.pauseDuration := by
  simp only [updateAdvancedTiming]; split <;> split <;> rfl

@[simp]
lemma updateAdvancedTiming_timeToCall :
    (updateAdvancedTiming s).timeToCall = s.timeToCall := by
  simp only [updateAdvancedTiming]; split <;> split <;> rfl

@[simp]
lemma updateAdvancedTiming_timeExpected :
    (updateAdvancedTiming s).timeExpected = s.timeExpected := by
  simp only [updateAdvancedTiming]; split <;> split <;> rfl

@[simp]
lemma updateAdvancedTiming_events : (updateAdvancedTiming s).events = s.events := by
  simp only [updateAdvancedTiming]; split <;> split <;> rfl

@[simp]
lemma updateAdvancedTiming_started : (updateAdvancedTiming s)._started = s._started := by
  simp only [updateAdvancedTiming]; split <;> split <;> rfl

@[simp]
lemma updateAdvancedTiming_pauseStarted :
    (updateAdvancedTiming s)._pauseStarted = s._pauseStarted := by
  simp only [updateAdvancedTiming]; split <;> split <;> rfl

@[simp]
lemma updateAdvancedTiming_justResumed :
    (updateAdvancedTiming s)._justResumed = s._justResumed := by
  simp only [updateAdvancedTiming]; split <;> split <;> rfl

@[simp]
lemma updateAdvancedTiming_timers : (updateAdvancedTiming s)._timers = s._timers := by
  simp only [updateAdvancedTiming]; split <;> split <;> rfl

/-- The non-paused tail of `update` only touches `events` and `_timers`. -/
lemma updatePools_shape :
    updatePools s =
      { s with
        events := (s.events.update s.time).2,
        _timers :=
          if s._timers.length ≠ 0 then updateTimersLoop s.time s._timers
          else s._timers } := by
  simp only [updatePools, updateTimers]
  split <;> rfl

@[simp]
lemma updateCore_events (d t : ℚ) (iso : Bool) :
    (updateCore d iso t s).events = s.events := by
  simp only [updateCore]
  split <;> split <;> simp

@[simp]
lemma updateCore_timers (d t : ℚ) (iso : Bool) :
    (updateCore d iso t s)._timers = s._timers := by
  simp only [updateCore]
  split <;> split <;> simp

end PreservationLemmas

/-- Unfolding `setAt` at an in-range index into take/cons/drop form. -/
lemma setAt_eq_take_cons_drop (l : List Timer) (i : ℕ) (f : Timer → Timer)
    (h : i < l.length) :
    setAt l i f = l.take i ++ f l[i] :: l.drop (i + 1) := by
  simp only [setAt, List.get?_eq_getElem?, List.getElem?_eq_getElem h]
  exact List.set_eq_take_cons_drop _ h

/-- The in-place reverse iteration applies `f` to every index below `i` and
leaves the rest of the list untouched. -/
lemma iterRev_eq_take_map (f : Timer → Timer) :
    ∀ (i : ℕ) (l : List Timer), i ≤ l.length →
      iterRev f l i = (l.take i).map f ++ l.drop i := by
  intro i
  induction i with
  | zero => intro l _; simp [iterRev]
  | succ i ih =>
    intro l h
    have hi : i < l.length := Nat.lt_of_lt_of_le (Nat.lt_succ_self i) h
    rw [iterRev, setAt_eq_take_cons_drop l i f hi]
    have hlen : (l.take i).length = i := by
      simp [List.length_take, Nat.min_eq_left hi.le]
    rw [ih _ (by simp only [List.length_append, List.length_cons, hlen]; omega)]
    rw [List.take_left' hlen, List.drop_left' hlen]
    rw [List.take_succ, List.getElem?_eq_getElem hi]
    simp only [Option.toList_some, List.map_append, List.map_cons, List.map_nil,
      List.append_assoc, List.cons_append, List.nil_append]

/-- Running the `while (i--)` loop over the whole pool equals mapping `f`
over it: in-place mutation of independent elements in reverse index order
gives each element exactly one `f` application and keeps the order. -/
lemma iterRev_length (f : Timer → Timer) (l : List Timer) :
    iterRev f l l.length = l.map f := by
  rw [iterRev_eq_take_map f l.length l le_rfl, List.take_length, List.drop_length,
    List.append_nil]

/-- The splice loop of `updateTimers` advances each timer exactly once (in
order) and keeps, in their original relative order, exactly the timers whose
advance returned `true`. -/
lemma updateTimersLoop_eq_filter_map (t : ℚ) (l : List Timer) :
    updateTimersLoop t l
      = (l.filter (fun tm => (tm.update t).1)).map (fun tm => (tm.update t).2) := by
  induction l with
  | nil => rfl
  | cons tm rest ih =>
    simp only [updateTimersLoop, List.filter_cons]
    cases h : (tm.update t).1 <;> simp [h, ih]

/-- Flooring commutes with clamping at zero (so the source's
`floor(max(0, x))` equals the spec's `max(0, floor(x))`). -/
lemma floor_max_zero (x : ℚ) : ⌊max 0 x⌋ = max 0 ⌊x⌋ := by
  rcases le_total x 0 with h | h
  · rw [max_eq_left h, Int.floor_zero, eq_comm, max_eq_left (Int.floor_nonpos h)]
  · rw [max_eq_right h, eq_comm, max_eq_right (Int.floor_nonneg.mpr h)]

section UpdateEffects

variable (d t : ℚ) (iso p : Bool) (s : Time)

@[simp]
lemma updateCore_time : (updateCore d iso t s).time = d := by
  simp only [updateCore]; split <;> split <;> simp

@[simp]
lemma updateCore_elapsedMS : (updateCore d iso t s).elapsedMS = d - s.time := by
  simp only [updateCore]; split <;> split <;> simp

@[simp]
lemma updateCore_prevTime : (updateCore d iso t s).prevTime = s.now := by
  simp only [updateCore]; split <;> split <;> simp

@[simp]
lemma updateCore_now : (updateCore d iso t s).now = t := by
  simp only [updateCore]; split <;> split <;> simp

@[simp]
lemma updateCore_elapsed : (updateCore d iso t s).elapsed = t - s.now := by
  simp only [updateCore]; split <;> split <;> simp

@[simp]
lemma updateCore_physicsElapsed :
    (updateCore d iso t s).physicsElapsed = s.physicsElapsed := by
  simp only [updateCore]; split <;> split <;> simp

@[simp]
lemma updateCore_physicsElapsedMS :
    (updateCore d iso t s).physicsElapsedMS = s.physicsElapsedMS := by
  simp only [updateCore]; split <;> split <;> simp

@[simp]
lemma updateCore_desiredFpsMult :
    (updateCore d iso t s).desiredFpsMult = s.desiredFpsMult := by
  simp only [updateCore]; split <;> split <;> simp

@[simp]
lemma updateCore_desiredFps : (updateCore d iso t s)._desiredFps = s._desiredFps := by
  simp only [updateCore]; split <;> split <;> simp

@[simp]
lemma updateCore_slowMotion : (updateCore d iso t s).slowMotion = s.slowMotion := by
  simp only [updateCore]; split <;> split <;> simp

@[simp]
lemma updateCore_advancedTiming :
    (updateCore d iso t s).advancedTiming = s.advancedTiming := by
  simp only [updateCore]; split <;> split <;> simp

@[simp]
lemma updateCore_pauseDuration :
    (updateCore d iso t s).pauseDuration = s.pauseDuration := by
  simp only [updateCore]; split <;> split <;> simp

@[simp]
lemma updateCore_started : (updateCore d iso t s)._started = s._started := by
  simp only [updateCore]; split <;> split <;> simp

@[simp]
lemma updateCore_pauseStarted :
    (updateCore d iso t s)._pauseStarted = s._pauseStarted := by
  simp only [updateCore]; split <;> split <;> simp

@[simp]
lemma updateCore_justResumed :
    (updateCore d iso t s)._justResumed = s._justResumed := by
  simp only [updateCore]; split <;> split <;> simp

@[simp]
lemma updateCore_timeToCall_fallback :
    (updateCore d true t s).timeToCall
      = ((⌊max 0 ((1000 / s._desiredFps) - (s.timeExpected - t))⌋ : ℤ) : ℚ) := by
  simp only [updateCore]; split <;> split <;> simp_all

@[simp]
lemma updateCore_timeExpected_fallback :
    (updateCore d true t s).timeExpected
      = t + ((⌊max 0 ((1000 / s._desiredFps) - (s.timeExpected - t))⌋ : ℤ) : ℚ) := by
  simp only [updateCore]; split <;> split <;> simp_all

@[simp]
lemma updateCore_timeToCall_vsync :
    (updateCore d false t s).timeToCall = s.timeToCall := by
  simp only [updateCore]; split <;> split <;> simp_all

@[simp]
lemma updateCore_timeExpected_vsync :
    (updateCore d false t s).timeExpected = s.timeExpected := by
  simp only [updateCore]; split <;> split <;> simp_all

@[simp]
lemma update_time : (update d iso p t s).time = d := by
  simp only [update]; split
  · simp
  · rw [updatePools_shape]; simp

@[simp]
lemma update_elapsedMS : (update d iso p t s).elapsedMS = d - s.time := by
  simp only [update]; split
  · simp
  · rw [updatePools_shape]; simp

@[simp]
lemma update_prevTime : (update d iso p t s).prevTime = s.now := by
  simp only [update]; split
  · simp
  · rw [updatePools_shape]; simp

@[simp]
lemma update_now : (update d iso p t s).now = t := by
  simp only [update]; split
  · simp
  · rw [updatePools_shape]; simp

@[simp]
lemma update_elapsed : (update d iso p t s).elapsed = t - s.now := by
  simp only [update]; split
  · simp
  · rw [updatePools_shape]; simp

@[simp]
lemma update_physicsElapsed :
    (update d iso p t s).physicsElapsed = s.physicsElapsed := by
  simp only [update]; split
  · simp
  · rw [updatePools_shape]; simp

@[simp]
lemma update_physicsElapsedMS :
    (update d iso p t s).physicsElapsedMS = s.physicsElapsedMS := by
  simp only [update]; split
  · simp
  · rw [updatePools_shape]; simp

@[simp]
lemma update_desiredFpsMult :
    (update d iso p t s).desiredFpsMult = s.desiredFpsMult := by
  simp only [update]; split
  · simp
  · rw [updatePools_shape]; simp

@[simp]
lemma update_desiredFps : (update d iso p t s)._desiredFps = s._desiredFps := by
  simp only [update]; split
  · simp
  · rw [updatePools_shape]; simp

@[simp]
lemma update_advancedTiming :
    (update d iso p t s).advancedTiming = s.advancedTiming := by
  simp only [update]; split
  · simp
  · rw [updatePools_shape]; simp

@[simp]
lemma update_pauseStarted :
    (update d iso p t s)._pauseStarted = s._pauseStarted := by
  simp only [update]; split
  · simp
  · rw [updatePools_shape]; simp

@[simp]
lemma update_timeToCall_fallback :
    (update d true p t s).timeToCall
      = ((⌊max 0 ((1000 / s._desiredFps) - (s.timeExpected - t))⌋ : ℤ) : ℚ) := by
  simp only [update]; split
  · simp
  · rw [updatePools_shape]; simp

@[simp]
lemma update_timeExpected_fallback :
    (update d true p t s).timeExpected
      = t + ((⌊max 0 ((1000 / s._desiredFps) - (s.timeExpected - t))⌋ : ℤ) : ℚ) := by
  simp only [update]; split
  · simp
  · rw [updatePools_shape]; simp

@[simp]
lemma update_timeToCall_vsync :
    (update d false p t s).timeToCall = s.timeToCall := by
  simp only [update]; split
  · simp
  · rw [updatePools_shape]; simp

@[simp]
lemma update_timeExpected_vsync :
    (update d false p t s).timeExpected = s.timeExpected := by
  simp only [update]; split
  · simp
  · rw [updatePools_shape]; simp

end UpdateEffects

section PoolEffects

variable (d t : ℚ) (iso : Bool) (s : Time)

@[simp]
lemma update_events_paused : (update d iso true t s).events = s.events := by
  simp only [update]; split
  · simp
  · simp_all

@[simp]
lemma update_timers_paused : (update d iso true t s)._timers = s._timers := by
  simp only [update]; split
  · simp
  · simp_all

@[simp]
lemma update_events_run :
    (update d iso false t s).events = (s.events.update d).2 := by
  simp only [update]; split
  · simp_all
  · rw [updatePools_shape]; simp

@[simp]
lemma update_timers_run :
    (update d iso false t s)._timers
      = (if s._timers.length ≠ 0 then updateTimersLoop d s._timers
         else s._timers) := by
  simp only [update]; split
  · simp_all
  · rw [updatePools_shape]; simp

end PoolEffects

/-- C9: `refresh()` recomputes only the wall-time fields: it sets `time`
(wallTime) to the fresh sample and `elapsedMS` (wallDeltaMs) to the wall
delta, leaving `now`, `elapsed` and every other Clock field unchanged (the
record-update equality says exactly that); consequently two `refresh()` calls
in immediate succession with the same wall-clock sample leave
`elapsedMS = 0` after the second call. -/
theorem c9_refresh_wall_only (d : ℚ) (s : Time) :
    refresh d s = { s with time := d, elapsedMS := d - s.time }
    ∧ (refresh d s).now = s.now
    ∧ (refresh d s).elapsed = s.elapsed
    ∧ (refresh d (refresh d s)).elapsedMS = 0 := by
  refine ⟨rfl, rfl, rfl, ?_⟩
  simp [refresh]

/-- C5: from a freshly constructed and booted Clock (previous `now` seeded to
0), the calls `update(0)`, `update(16)`, `update(33)` produce the `elapsed`
sequence 0, 16, 17, each computed as the new `now` minus the previous `now`
(first conjunct, stated for every update call). -/
theorem c5_elapsed_sequence :
    (∀ (d t : ℚ) (iso p : Bool) (s : Time),
        (update d iso p t s).elapsed = t - s.now ∧ (update d iso p t s).now = t)
    ∧ (boot 0 construct).now = 0
    ∧ (update 0 false false 0 (boot 0 construct)).elapsed = 0
    ∧ (update 16 false false 16
        (update 0 false false 0 (boot 0 construct))).elapsed = 16
    ∧ (update 33 false false 33 (update 16 false false 16
        (update 0 false false 0 (boot 0 construct)))).elapsed = 17 := by
  refine ⟨fun d t iso p s => ⟨by simp, by simp⟩, rfl, ?_, ?_, ?_⟩
  · norm_num [boot, construct]
  · norm_num [boot, construct]
  · norm_num [boot, construct]

/-- C2: during a fallback (`setTimeout`) update, `timeToCall` becomes
`max(0, floor(1000/desiredFps - (timeExpected_old - now)))` — the source's
`floor(max(0, ...))` is the same number — and `timeExpected` becomes
`now + timeToCall`; during a vsync-aligned (RAF) update both fields are left
unchanged. -/
theorem c2_fallback_cadence (s : Time) (d t : ℚ) (p : Bool) :
    ((update d true p t s).timeToCall
        = max 0 ((⌊(1000 / s._desiredFps) - (s.timeExpected - t)⌋ : ℤ) : ℚ)
      ∧ (update d true p t s).timeExpected = t + (update d true p t s).timeToCall)
    ∧ (update d false p t s).timeToCall = s.timeToCall
    ∧ (update d false p t s).timeExpected = s.timeExpected := by
  refine ⟨⟨?_, ?_⟩, by simp, by simp⟩
  · rw [update_timeToCall_fallback, floor_max_zero]
    push_cast
    rfl
  · rw [update_timeExpected_fallback, update_timeToCall_fallback]

/-- C1 counterexample: `gamePaused()` does NOT record `_pauseStarted` as the
Clock's stored wall-time field.  Concretely, refresh the clock when the wall
clock reads 100, let the wall clock advance to 150, then call `gamePaused()`:
`_pauseStarted` becomes the fresh sample 150 while the `time` (wallTime)
field still holds 100. -/
theorem c1_pause_started_not_wallTime_field :
    ¬ ((gamePaused 150 (refresh 100 construct))._pauseStarted
        = (gamePaused 150 (refresh 100 construct)).time) := by
  norm_num [gamePaused, refresh, construct, iterRev]

/-- C1 (amended): `gamePaused()` records `_pauseStarted` from a fresh
wall-clock sample (leaving the stored wallTime field `time` unchanged, so the
two agree only when `time` is current), pauses the master timer and then
every pooled timer — the reverse-order in-place loop amounts to mapping the
pause call over the pool; a subsequent `gameResumed()` after an external
wall-clock delay `D` refreshes `time` and sets
`pauseDuration = time - _pauseStarted`, which is exactly `D` under a mocked
wall clock; and each pooled timer receives exactly one pause and then one
resume, with no advance in between (its log grows by exactly
`[pause, resume]` and its update counter is untouched). -/
theorem c1_pause_resume_round_trip (s : Time) (w D : ℚ) :
    (gamePaused w s)._pauseStarted = w
    ∧ (gamePaused w s).time = s.time
    ∧ (gamePaused w s).events = s.events.pause
    ∧ (gamePaused w s)._timers = s._timers.map Timer._pause
    ∧ (gameResumed (w + D) (gamePaused w s)).time = w + D
    ∧ (gameResumed (w + D) (gamePaused w s)).pauseDuration = D
    ∧ (gameResumed (w + D) (gamePaused w s)).events = s.events.pause.resume
    ∧ (gameResumed (w + D) (gamePaused w s))._timers
        = s._timers.map
            (fun tm =>
              { tm with log := tm.log ++ [TimerEvent.pause, TimerEvent.resume] }) := by
  refine ⟨rfl, rfl, rfl, ?_, rfl, ?_, ?_, ?_⟩
  · show iterRev Timer._pause s._timers s._timers.length = _
    rw [iterRev_length]
  · show w + D - (gamePaused w s)._pauseStarted = D
    show w + D - w = D
    ring
  · rfl
  · show iterRev Timer._resume (gamePaused w s)._timers (gamePaused w s)._timers.length
        = _
    show iterRev Timer._resume (iterRev Timer._pause s._timers s._timers.length)
          (iterRev Timer._pause s._timers s._timers.length).length = _
    rw [iterRev_length, iterRev_length, List.map_map]
    simp [Timer._pause, Timer._resume, Function.comp]

/-- C4: during a non-paused update each pooled timer is advanced exactly once,
in pool order, with the current wall time; timers whose advance returns
`false` are removed in place and the survivors keep their relative order (the
loop equals filter-then-map over the original pool).  Concretely, with 3
pooled timers where timer 2's advance returns `false` on the third update,
after that update the pool holds exactly timers 1 and 3 in order, each
having received exactly the three advance calls. -/
theorem c4_pool_pruning :
    (∀ (t : ℚ) (l : List Timer),
        updateTimersLoop t l
          = (l.filter (fun tm => (tm.update t).1)).map (fun tm => (tm.update t).2))
    ∧ ((update 2 false false 2 (update 1 false false 1
          ((add { id := 3, script := [], nUpdates := 0, log := [] }
            ((add { id := 2, script := [true, true, false], nUpdates := 0, log := [] }
              ((add { id := 1, script := [], nUpdates := 0, log := [] }
                (boot 0 construct)).2)).2)).2)))._timers.map Timer.id
        = [1, 2, 3])
    ∧ ((update 3 false false 3 (update 2 false false 2 (update 1 false false 1
          ((add { id := 3, script := [], nUpdates := 0, log := [] }
            ((add { id := 2, script := [true, true, false], nUpdates := 0, log := [] }
              ((add { id := 1, script := [], nUpdates := 0, log := [] }
                (boot 0 construct)).2)).2)).2))))._timers
        = [{ id := 1, script := [], nUpdates := 3,
             log := [TimerEvent.update 1, TimerEvent.update 2, TimerEvent.update 3] },
           { id := 3, script := [], nUpdates := 3,
             log := [TimerEvent.update 1, TimerEvent.update 2, TimerEvent.update 3] }]) := by
  refine ⟨updateTimersLoop_eq_filter_map, ?_, ?_⟩
  · norm_num [add, boot, construct, updateTimersLoop, Timer.update]
  · norm_num [add, boot, construct, updateTimersLoop, Timer.update]

/-- C7: an update made while the game is globally paused does not advance the
master timer and leaves the timer pool untouched, while every other field
(wall time, now/prevTime, elapsed, fallback-cadence fields, statistics) is
updated exactly as in the corresponding non-paused update: the paused result
is the non-paused result with `events` and `_timers` put back to their
pre-update values. -/
theorem c7_paused_update (d t : ℚ) (iso : Bool) (s : Time) :
    (update d iso true t s).events = s.events
    ∧ (update d iso true t s)._timers = s._timers
    ∧ update d iso true t s
        = { update d iso false t s with events := s.events, _timers := s._timers } := by
  refine ⟨by simp, by simp, ?_⟩
  have h1 : update d iso true t s = updateCore d iso t s := by simp [update]
  have h2 : update d iso false t s = updatePools (updateCore d iso t s) := by
    simp [update]
  rw [h1, h2, updatePools_shape, ← updateCore_events s d t iso,
    ← updateCore_timers s d t iso]

/-- The statistics fields of the claim C8 (per-second counters, rates, rate
and frame-duration extrema, `suggestedFps`, the internal frame counter and
elapsed accumulator) agree between two clock states. -/
def statsEq (a b : Time) : Prop :=
  a.frames = b.frames ∧ a.updates = b.updates ∧ a.renders = b.renders
  ∧ a.fps = b.fps ∧ a.ups = b.ups ∧ a.rps = b.rps
  ∧ a.fpsMin = b.fpsMin ∧ a.fpsMax = b.fpsMax
  ∧ a.msMin = b.msMin ∧ a.msMax = b.msMax
  ∧ a.suggestedFps = b.suggestedFps
  ∧ a._frameCount = b._frameCount
  ∧ a._elapsedAccumulator = b._elapsedAccumulator

/-- With `advancedTiming` disabled, `updateCore` leaves every statistics
field unchanged. -/
lemma updateCore_statsEq (d t : ℚ) (iso : Bool) (s : Time)
    (h : s.advancedTiming = false) :
    statsEq (updateCore d iso t s) s := by
  simp only [updateCore, statsEq]
  split <;> simp [h]

/-- C8: with the statistics feature flag `advancedTiming` false, `update()`,
`countUpdate()` and `countRender()` leave every statistics field unchanged
(`frames`, `updates`, `renders`, `fps`, `ups`, `rps`, `fpsMin`, `fpsMax`,
`msMin`, `msMax`, `suggestedFps`, the internal frame counter and the elapsed
accumulator): the last computed values are retained. -/
theorem c8_stats_frozen_when_disabled (s : Time) (h : s.advancedTiming = false)
    (d t : ℚ) (iso p : Bool) :
    statsEq (update d iso p t s) s
    ∧ statsEq (countUpdate s) s
    ∧ statsEq (countRender s) s := by
  refine ⟨?_, by simp [statsEq, countUpdate, h], by simp [statsEq, countRender, h]⟩
  have hc := updateCore_statsEq d t iso s h
  simp only [update]
  split
  · exact hc
  · rw [updatePools_shape]
    simpa [statsEq] using hc

/-- C8 witness: a freshly constructed clock has `advancedTiming = false`, and
the three operations leave its statistics fields unchanged. -/
theorem c8_stats_frozen_witness :
    construct.advancedTiming = false
    ∧ (statsEq (update 5 false false 3 construct) construct
       ∧ statsEq (countUpdate construct) construct
       ∧ statsEq (countRender construct) construct) :=
  ⟨rfl, c8_stats_frozen_when_disabled construct rfl 5 3 false false⟩

/-- The fixed-step invariant of claim C3: the millisecond physics delta is
the second physics delta scaled by 1000. -/
def physInv (s : Time) : Prop :=
  s.physicsElapsedMS = s.physicsElapsed * 1000

/-- Every public operation preserves the fixed-step invariant (the
`desiredFps` setter re-establishes it; no other operation touches the two
fields). -/
lemma physInv_apply (op : Op) (s : Time) (h : physInv s) : physInv (op.apply s) := by
  cases op with
  | boot d => exact h
  | update d iso p t => simpa [physInv, Op.apply] using h
  | refresh d => exact h
  | add tm => exact h
  | create i => exact h
  | removeAll => exact h
  | reset => exact h
  | gamePaused d => exact h
  | gameResumed d => exact h
  | countUpdate => simp only [Op.apply, countUpdate]; split <;> exact h
  | countRender => simp only [Op.apply, countRender]; split <;> exact h
  | setDesiredFps v => rfl
  | setAdvancedTiming b => exact h
  | setSlowMotion v => exact h

/-- The fixed-step invariant is preserved by any sequence of public
operations. -/
lemma physInv_runOps (ops : List Op) :
    ∀ s : Time, physInv s → physInv (runOps ops s) := by
  induction ops with
  | nil => intro s h; exact h
  | cons op rest ih =>
    intro s h
    exact ih (op.apply s) (physInv_apply op s h)

/-- C3: setting `desiredFps` to a positive `r` sets, in the same operation,
`physicsElapsed = 1/r`, `physicsElapsedMS = (1/r) * 1000` and
`desiredFpsMult = 1/r`; and since the setter is the only write path for these
fields, `physicsElapsedMS = physicsElapsed * 1000` holds after construction
and after every sequence of public operations. -/
theorem c3_fixed_step_invariant (r : ℚ) (h : 0 < r) (s : Time) (ops : List Op) :
    ((setDesiredFps r s)._desiredFps = r
      ∧ (setDesiredFps r s).physicsElapsed = 1 / r
      ∧ (setDesiredFps r s).physicsElapsedMS = (1 / r) * 1000
      ∧ (setDesiredFps r s).desiredFpsMult = 1 / r)
    ∧ physInv construct
    ∧ physInv (runOps ops construct) :=
  ⟨⟨rfl, rfl, rfl, rfl⟩, rfl, physInv_runOps ops construct rfl⟩

/-- C3 witness: the setter facts at `r = 30` and the invariant after a
concrete call sequence. -/
theorem c3_fixed_step_witness :
    (0 : ℚ) < 30
    ∧ (((setDesiredFps 30 construct)._desiredFps = 30
        ∧ (setDesiredFps 30 construct).physicsElapsed = 1 / 30
        ∧ (setDesiredFps 30 construct).physicsElapsedMS = (1 / 30) * 1000
        ∧ (setDesiredFps 30 construct).desiredFpsMult = 1 / 30)
      ∧ physInv construct
      ∧ physInv (runOps
          [Op.boot 2, Op.setDesiredFps 30, Op.update 5 true false 4,
           Op.gamePaused 9, Op.gameResumed 12] construct)) :=
  ⟨by norm_num,
   c3_fixed_step_invariant 30 (by norm_num) construct
     [Op.boot 2, Op.setDesiredFps 30, Op.update 5 true false 4,
      Op.gamePaused 9, Op.gameResumed 12]⟩

/-- No public operation other than `gamePaused` writes `_pauseStarted`. -/
lemma apply_pauseStarted (op : Op) (s : Time) (h : op.isGamePaused = false) :
    (op.apply s)._pauseStarted = s._pauseStarted := by
  cases op with
  | boot d => rfl
  | update d iso p t => simp [Op.apply]
  | refresh d => rfl
  | add tm => rfl
  | create i => rfl
  | removeAll => rfl
  | reset => rfl
  | gamePaused d => simp [Op.isGamePaused] at h
  | gameResumed d => rfl
  | countUpdate => simp only [Op.apply, countUpdate]; split <;> rfl
  | countRender => simp only [Op.apply, countRender]; split <;> rfl
  | setDesiredFps v => rfl
  | setAdvancedTiming b => rfl
  | setSlowMotion v => rfl

/-- A sequence of public operations containing no `gamePaused` call leaves
`_pauseStarted` unchanged. -/
lemma runOps_pauseStarted (ops : List Op)
    (h : ∀ op ∈ ops, op.isGamePaused = false) :
    ∀ s : Time, (runOps ops s)._pauseStarted = s._pauseStarted := by
  induction ops with
  | nil => intro s; rfl
  | cons op rest ih =>
    intro s
    have h1 : op.isGamePaused = false := h op (List.mem_cons_self op rest)
    have h2 : ∀ o ∈ rest, o.isGamePaused = false :=
      fun o ho => h o (List.mem_cons_of_mem op ho)
    calc (runOps (op :: rest) s)._pauseStarted
        = (runOps rest (op.apply s))._pauseStarted := rfl
      _ = (op.apply s)._pauseStarted := ih h2 (op.apply s)
      _ = s._pauseStarted := apply_pauseStarted op s h1

/-- C10: on a clock on which `gamePaused()` has never been called (any
sequence of other public operations from construction), the internal
pause-start field still holds its zero initialization, so `gameResumed()`
sets `pauseDuration` to the full freshly sampled wall-clock timestamp
(`d - 0 = d`) with no guard preventing it. -/
theorem c10_resume_without_pause (ops : List Op)
    (h : ∀ op ∈ ops, op.isGamePaused = false) (d : ℚ) :
    (runOps ops construct)._pauseStarted = 0
    ∧ (gameResumed d (runOps ops construct)).pauseDuration
        = d - (runOps ops construct)._pauseStarted
    ∧ (gameResumed d (runOps ops construct)).pauseDuration = d := by
  have h0 : (runOps ops construct)._pauseStarted = 0 := by
    rw [runOps_pauseStarted ops h construct]; rfl
  refine ⟨h0, rfl, ?_⟩
  show d - (runOps ops construct)._pauseStarted = d
  rw [h0, sub_zero]

/-- C10 witness: a boot and two updates never pause the game, and a
`gameResumed` at wall time 500 then reports a pause duration of 500. -/
theorem c10_resume_without_pause_witness :
    (∀ op ∈ [Op.boot 3, Op.update 7 false false 4, Op.update 9 true false 6],
        op.isGamePaused = false)
    ∧ ((runOps [Op.boot 3, Op.update 7 false false 4, Op.update 9 true false 6]
          construct)._pauseStarted = 0
      ∧ (gameResumed 500
          (runOps [Op.boot 3, Op.update 7 false false 4, Op.update 9 true false 6]
            construct)).pauseDuration
          = 500 - (runOps
              [Op.boot 3, Op.update 7 false false 4, Op.update 9 true false 6]
              construct)._pauseStarted
      ∧ (gameResumed 500
          (runOps [Op.boot 3, Op.update 7 false false 4, Op.update 9 true false 6]
            construct)).pauseDuration = 500) :=
  ⟨by intro op hop; fin_cases hop <;> rfl,
   c10_resume_without_pause
     [Op.boot 3, Op.update 7 false false 4, Op.update 9 true false 6]
     (by intro op hop; fin_cases hop <;> rfl) 500⟩

/-- The frame timestamps `E, 2E, ..., nE`, which make every one of `n`
successive update calls contribute a constant elapsed of `E`. -/
def statNows (E : ℚ) (n : ℕ) : List ℚ :=
  (List.range n).map (fun i => ((i + 1 : ℕ) : ℚ) * E)

/-- Driving a sequence of `update` calls with the given frame timestamps
(wall-clock sample and scheduler flags held fixed). -/
def runUpdates (d : ℚ) (iso p : Bool) (nows : List ℚ) (s : Time) : Time :=
  nows.foldl (fun acc t => update d iso p t acc) s

lemma statNows_succ (E : ℚ) (n : ℕ) :
    statNows E (n + 1) = statNows E n ++ [((n + 1 : ℕ) : ℚ) * E] := by
  simp [statNows, List.range_succ]

lemma runUpdates_snoc (d : ℚ) (iso p : Bool) (nows : List ℚ) (t : ℚ) (s : Time) :
    runUpdates d iso p (nows ++ [t]) s
      = update d iso p t (runUpdates d iso p nows s) := by
  simp [runUpdates, List.foldl_append]

/-- While the incremented frame counter stays below `desiredFps * 2`,
`updateAdvancedTiming` just counts the frame and accumulates the elapsed
time, leaving `suggestedFps` alone. -/
lemma updateAdvancedTiming_noTrigger (s : Time)
    (hlt : ((s._frameCount + 1 : ℕ) : ℚ) < s._desiredFps * 2) :
    (updateAdvancedTiming s)._frameCount = s._frameCount + 1
    ∧ (updateAdvancedTiming s)._elapsedAccumulator
        = s._elapsedAccumulator + s.elapsed
    ∧ (updateAdvancedTiming s).suggestedFps = s.suggestedFps := by
  simp only [updateAdvancedTiming]
  rw [if_neg (not_le.mpr hlt)]
  split <;> exact ⟨rfl, rfl, rfl⟩

/-- When the incremented frame counter reaches `desiredFps * 2`,
`updateAdvancedTiming` recomputes `suggestedFps` from the average elapsed
time over the window and zeroes the counter and accumulator. -/
lemma updateAdvancedTiming_trigger (s : Time)
    (hge : s._desiredFps * 2 ≤ ((s._frameCount + 1 : ℕ) : ℚ)) :
    (updateAdvancedTiming s)._frameCount = 0
    ∧ (updateAdvancedTiming s)._elapsedAccumulator = 0
    ∧ (updateAdvancedTiming s).suggestedFps
        = ((⌊200 / ((s._elapsedAccumulator + s.elapsed)
              / ((s._frameCount + 1 : ℕ) : ℚ))⌋ : ℤ) : ℚ) * 5 := by
  simp only [updateAdvancedTiming]
  rw [if_pos hge]
  split <;> exact ⟨rfl, rfl, rfl⟩

lemma update_frameCount_core (d t : ℚ) (iso p : Bool) (s : Time) :
    (update d iso p t s)._frameCount = (updateCore d iso t s)._frameCount := by
  simp only [update]; split
  · rfl
  · rw [updatePools_shape]

lemma update_accumulator_core (d t : ℚ) (iso p : Bool) (s : Time) :
    (update d iso p t s)._elapsedAccumulator
      = (updateCore d iso t s)._elapsedAccumulator := by
  simp only [update]; split
  · rfl
  · rw [updatePools_shape]

lemma update_suggestedFps_core (d t : ℚ) (iso p : Bool) (s : Time) :
    (update d iso p t s).suggestedFps = (updateCore d iso t s).suggestedFps := by
  simp only [update]; split
  · rfl
  · rw [updatePools_shape]

/-- One `update` call with statistics enabled and the window not yet full:
the frame counter advances, the elapsed `t - now` is accumulated,
`suggestedFps` is untouched. -/
lemma update_statsStep (d t : ℚ) (iso p : Bool) (s : Time)
    (hA : s.advancedTiming = true)
    (hlt : ((s._frameCount + 1 : ℕ) : ℚ) < s._desiredFps * 2) :
    (update d iso p t s)._frameCount = s._frameCount + 1
    ∧ (update d iso p t s)._elapsedAccumulator
        = s._elapsedAccumulator + (t - s.now)
    ∧ (update d iso p t s).suggestedFps = s.suggestedFps := by
  rw [update_frameCount_core, update_accumulator_core, update_suggestedFps_core]
  simp only [updateCore]
  split <;> exact updateAdvancedTiming_noTrigger _ hlt

/-- One `update` call with statistics enabled that fills the window: the
counter and accumulator are zeroed and `suggestedFps` is recomputed from the
window average. -/
lemma update_statsTrigger (d t : ℚ) (iso p : Bool) (s : Time)
    (hA : s.advancedTiming = true)
    (hge : s._desiredFps * 2 ≤ ((s._frameCount + 1 : ℕ) : ℚ)) :
    (update d iso p t s)._frameCount = 0
    ∧ (update d iso p t s)._elapsedAccumulator = 0
    ∧ (update d iso p t s).suggestedFps
        = ((⌊200 / ((s._elapsedAccumulator + (t - s.now))
              / ((s._frameCount + 1 : ℕ) : ℚ))⌋ : ℤ) : ℚ) * 5 := by
  rw [update_frameCount_core, update_accumulator_core, update_suggestedFps_core]
  simp only [updateCore]
  split <;> exact updateAdvancedTiming_trigger _ hge

/-- Invariant driven through the first `k < 2r` update calls of the C6
scenario: the counter holds `k`, the accumulator `k * E`, `now` is `k * E`,
and the rate and flag are untouched. -/
lemma c6_aux (r : ℕ) (E d : ℚ) (iso p : Bool) :
    ∀ k, k < 2 * r →
      (runUpdates d iso p (statNows E k)
          (setAdvancedTiming true (setDesiredFps (r : ℚ) construct)))._frameCount = k
      ∧ (runUpdates d iso p (statNows E k)
          (setAdvancedTiming true
            (setDesiredFps (r : ℚ) construct)))._elapsedAccumulator = (k : ℚ) * E
      ∧ (runUpdates d iso p (statNows E k)
          (setAdvancedTiming true (setDesiredFps (r : ℚ) construct))).now
          = (k : ℚ) * E
      ∧ (runUpdates d iso p (statNows E k)
          (setAdvancedTiming true (setDesiredFps (r : ℚ) construct)))._desiredFps
          = (r : ℚ)
      ∧ (runUpdates d iso p (statNows E k)
          (setAdvancedTiming true (setDesiredFps (r : ℚ) construct))).advancedTiming
          = true := by
  intro k
  induction k with
  | zero =>
    intro _
    refine ⟨rfl, ?_, ?_, rfl, rfl⟩ <;>
      simp [runUpdates, statNows, setAdvancedTiming, setDesiredFps, construct]
  | succ k ih =>
    intro hk
    obtain ⟨h1, h2, h3, h4, h5⟩ := ih (Nat.lt_of_succ_lt hk)
    rw [statNows_succ, runUpdates_snoc]
    have hlt : (((runUpdates d iso p (statNows E k)
          (setAdvancedTiming true
            (setDesiredFps (r : ℚ) construct)))._frameCount + 1 : ℕ) : ℚ)
        < (runUpdates d iso p (statNows E k)
            (setAdvancedTiming true (setDesiredFps (r : ℚ) construct)))._desiredFps
          * 2 := by
      rw [h1, h4]
      have hc : ((k + 1 : ℕ) : ℚ) < ((2 * r : ℕ) : ℚ) := by exact_mod_cast hk
      push_cast at hc ⊢
      linarith
    obtain ⟨f1, f2, f3⟩ :=
      update_statsStep d (((k + 1 : ℕ) : ℚ) * E) iso p _ h5 hlt
    refine ⟨?_, ?_, ?_, ?_, ?_⟩
    · rw [f1, h1]
    · rw [f2, h2, h3]; push_cast; ring
    · rw [update_now]
    · rw [update_desiredFps, h4]
    · rw [update_advancedTiming, h5]

/-- C6: with statistics enabled, after exactly `2 * desiredFps` update calls
each contributing a constant elapsed of `E` (exact arithmetic), the clock
recomputes `suggestedFps = floor(200/E) * 5` — the average-rate estimate
rounded down to a multiple of 5 — and that recomputation resets the internal
frame counter and elapsed accumulator to zero. -/
theorem c6_suggested_fps (r : ℕ) (E : ℚ) (hr : 0 < r) (hE : 0 < E)
    (d : ℚ) (iso p : Bool) :
    (runUpdates d iso p (statNows E (2 * r))
        (setAdvancedTiming true (setDesiredFps (r : ℚ) construct))).suggestedFps
      = ((⌊200 / E⌋ : ℤ) : ℚ) * 5
    ∧ (runUpdates d iso p (statNows E (2 * r))
        (setAdvancedTiming true (setDesiredFps (r : ℚ) construct)))._frameCount = 0
    ∧ (runUpdates d iso p (statNows E (2 * r))
        (setAdvancedTiming true
          (setDesiredFps (r : ℚ) construct)))._elapsedAccumulator = 0 := by
  have h2r : 2 * r = (2 * r - 1) + 1 := by omega
  obtain ⟨h1, h2, h3, h4, h5⟩ := c6_aux r E d iso p (2 * r - 1) (by omega)
  rw [h2r, statNows_succ, runUpdates_snoc]
  have hge : (runUpdates d iso p (statNows E (2 * r - 1))
        (setAdvancedTiming true (setDesiredFps (r : ℚ) construct)))._desiredFps * 2
      ≤ (((runUpdates d iso p (statNows E (2 * r - 1))
          (setAdvancedTiming true
            (setDesiredFps (r : ℚ) construct)))._frameCount + 1 : ℕ) : ℚ) := by
    rw [h1, h4]
    have he : (2 * r - 1) + 1 = 2 * r := by omega
    rw [he]
    push_cast
    linarith
  obtain ⟨f1, f2, f3⟩ :=
    update_statsTrigger d ((((2 * r - 1) + 1 : ℕ) : ℚ) * E) iso p _ h5 hge
  refine ⟨?_, f1, f2⟩
  rw [f3, h1, h2, h3]
  have hC : ((((2 * r - 1) + 1 : ℕ)) : ℚ) ≠ 0 := by
    exact_mod_cast Nat.succ_ne_zero (2 * r - 1)
  have hsum : (((2 * r - 1 : ℕ) : ℚ) * E
        + (((((2 * r - 1) + 1 : ℕ)) : ℚ) * E - ((2 * r - 1 : ℕ) : ℚ) * E))
      = ((((2 * r - 1) + 1 : ℕ)) : ℚ) * E := by ring
  rw [hsum, mul_div_cancel_left₀ E hC]

/-- C6 witness: at `r = 1`, `E = 16`, two update calls recompute
`suggestedFps` to `floor(200/16) * 5 = 60` and zero the window. -/
theorem c6_suggested_fps_witness :
    0 < 1 ∧ (0 : ℚ) < 16
    ∧ ((runUpdates 0 false false (statNows 16 (2 * 1))
          (setAdvancedTiming true (setDesiredFps ((1 : ℕ) : ℚ) construct))).suggestedFps
        = ((⌊(200 : ℚ) / 16⌋ : ℤ) : ℚ) * 5
      ∧ (runUpdates 0 false false (statNows 16 (2 * 1))
          (setAdvancedTiming true
            (setDesiredFps ((1 : ℕ) : ℚ) construct)))._frameCount = 0
      ∧ (runUpdates 0 false false (statNows 16 (2 * 1))
          (setAdvancedTiming true
            (setDesiredFps ((1 : ℕ) : ℚ) construct)))._elapsedAccumulator = 0) :=
  ⟨by norm_num, by norm_num,
   c6_suggested_fps 1 16 (by norm_num) (by norm_num) 0 false false⟩

end Time

end PhaserCE
